import Mathlib

/-
  Verification of the `BaseRepository` wrapper of supabase-repo-wrapper.

  The wrapper (src/base-repository.ts) delegates every operation to a
  Supabase client and only adds error plumbing, pagination arithmetic and a
  sequential bulk-update loop.  We embed:

  * the wrapper methods at the response level: each method is a function of
    the `{ data, error, count }` response(s) the client produced, exactly
    mirroring the `if (error) throw error` plumbing of the source;
  * the repository's own model of the client, the mock Supabase client that
    ships in its test suite (tests/mock-supabase-client.ts), as executable
    semantics for the end-to-end claims (row tables, filters, ordering,
    ranges, head counts, updates and upserts).

  Rows are JS objects embedded as association lists with unique-key JS
  semantics; JS strings are Lean `String`s, JS numbers the integers that
  actually occur in this code base.
-/

namespace SupabaseRepoWrapper

/-- A JS value stored in a row: the mock client's tables hold strings,
numbers and null. -/
inductive JVal where
  | str : String → JVal
  | num : Int → JVal
  | null : JVal
deriving DecidableEq

/-- A JS object (one table row): an association list of field name / value
pairs.  JS objects have unique keys; property access is `List.lookup`. -/
abbrev Row := List (String × JVal)

/-- An error object produced by the client (PostgrestError); the wrapper
never inspects it, only rethrows it. -/
structure PgError where
  msg : String
deriving DecidableEq

/-- The `{ data, error, count }` shape every Supabase query resolves to
(MockSupabaseResponse in tests/mock-supabase-client.ts): `data: T | null`,
`error: any | null`, `count?: number | null`. -/
structure QueryResponse (α : Type) where
  data : Option α
  error : Option PgError
  count : Option Nat
deriving DecidableEq

namespace MockClient

/-- Sequential application of the accumulated filter predicates, as
`executeQuery` does with `filteredData = filteredData.filter(filter)`. -/
def filterAll (filters : List (Row → Bool)) (table : List Row) : List Row :=
  filters.foldl (fun acc f => acc.filter f) table

/-- JS `<` on the value shapes the mock sorts: numbers numerically, strings
lexicographically, `null` coerced to 0 against numbers; a comparison mixing
a string with a non-string is NaN-like and yields false. -/
def jvalLt : JVal → JVal → Bool
  | JVal.num a, JVal.num b => decide (a < b)
  | JVal.str a, JVal.str b => decide (a < b)
  | JVal.null, JVal.num b => decide ((0 : Int) < b)
  | JVal.num a, JVal.null => decide (a < 0)
  | _, _ => false

/-- JS `<` where either side may be `undefined` (a missing column):
comparisons against `undefined` are false both ways. -/
def jvalLtO : Option JVal → Option JVal → Bool
  | some a, some b => jvalLt a b
  | _, _ => false

/-- The mock sort comparator: walk the orderBy entries; on the first
column where the values differ return the direction, else tie. -/
def rowCompare (ord : List (String × Bool)) (a b : Row) : Ordering :=
  match ord with
  | [] => Ordering.eq
  | (col, asc) :: rest =>
    let av := a.lookup col
    let bv := b.lookup col
    if jvalLtO av bv then (if asc then Ordering.lt else Ordering.gt)
    else if jvalLtO bv av then (if asc then Ordering.gt else Ordering.lt)
    else rowCompare rest a b

/-- Stable insertion for the comparator sort. -/
def insertRow (ord : List (String × Bool)) (x : Row) : List Row → List Row
  | [] => [x]
  | y :: ys =>
    if rowCompare ord x y = Ordering.gt then y :: insertRow ord x ys
    else x :: y :: ys

/-- The mock's comparator sort (`filteredData.sort(...)`), as a stable
insertion sort. -/
def sortRows (ord : List (String × Bool)) : List Row → List Row
  | [] => []
  | x :: xs => insertRow ord x (sortRows ord xs)

/-- JS `Array.prototype.slice(start, stop)` on the nonnegative index
domain used here. -/
def jsSlice (l : List Row) (start stop : Nat) : List Row :=
  (l.drop start).take (stop - start)

/-- The `executeQuery` of the mock client: filter, sort when ordered, take the
exact count, apply the range as `slice(rangeStart, rangeEnd + 1)`; a
head-only query answers with the count and no data. -/
def executeQuery (table : List Row) (filters : List (Row → Bool))
    (ord : List (String × Bool)) (range : Option (Nat × Nat))
    (isHead isCountExact : Bool) : QueryResponse (List Row) :=
  let filtered := filterAll filters table
  let sorted := if ord.isEmpty then filtered else sortRows ord filtered
  let cnt := sorted.length
  let ranged :=
    match range with
    | some se => jsSlice sorted se.1 (se.2 + 1)
    | none => sorted
  if isHead then ⟨none, none, some cnt⟩
  else ⟨some ranged, none, if isCountExact then some cnt else none⟩

/-- The rows a query without a range returns: the filtered table, sorted
when an ordering is present (the filter/sort stage of `executeQuery`). -/
def selectedRows (table : List Row) (filters : List (Row → Bool))
    (ord : List (String × Bool)) : List Row :=
  let filtered := filterAll filters table
  if ord.isEmpty then filtered else sortRows ord filtered

/-- The mock's `single()`: run the query; zero rows give
`{ data: null, error: null }`, more than one row an error, one row the
row itself. -/
def single (table : List Row) (filters : List (Row → Bool))
    (ord : List (String × Bool)) (range : Option (Nat × Nat)) :
    QueryResponse Row :=
  let result := executeQuery table filters ord range false false
  match result.error with
  | some e => ⟨none, some e, result.count⟩
  | none =>
    match result.data.getD [] with
    | [] => ⟨none, none, none⟩
    | [r] => ⟨some r, none, none⟩
    | _ => ⟨none, some ⟨"Multiple rows returned"⟩, none⟩

/-- JS object spread `{ ...old, ...patch }`: old keys keep their position,
patch values override, patch keys absent from old are appended. -/
def mergeRow (old patch : Row) : Row :=
  (old.map fun kv =>
    match patch.lookup kv.1 with
    | some v => (kv.1, v)
    | none => kv)
  ++ patch.filter fun kv => (old.lookup kv.1).isNone

/-- The mock's `update(data).eq('id', value).select().single()`: find the
first row whose id matches (`item[column] === value`, where a missing
record id compares as `undefined`); no match is the
`No rows updated` error, otherwise the row is replaced by the spread
merge and returned.  Returns the new table and the response. -/
def updateById (table : List Row) (idv : Option JVal) (patch : Row) :
    List Row × QueryResponse Row :=
  match table.findIdx? (fun row => decide (row.lookup "id" = idv)) with
  | none => (table, ⟨none, some ⟨"No rows updated"⟩, none⟩)
  | some i =>
    let updated := mergeRow (table.getD i []) patch
    (table.set i updated, ⟨some updated, none, none⟩)

/-- JS `String.prototype.split(',')` on the character list of a string. -/
def splitCommaAux : List Char → List (List Char)
  | [] => [[]]
  | c :: rest =>
    if c = ',' then [] :: splitCommaAux rest
    else
      match splitCommaAux rest with
      | [] => [[c]]
      | s :: ss => (c :: s) :: ss

/-- JS `s.split(',')`. -/
def jsSplitComma (s : String) : List String :=
  (splitCommaAux s.data).map String.mk

/-- JS `Array.prototype.join(',')`. -/
def jsJoinComma : List String → String
  | [] => ""
  | [c] => c
  | c :: cs => c ++ "," ++ jsJoinComma cs

/-- JS truthiness of a property that may be missing: `undefined`, `null`,
`0` and the empty string are falsy. -/
def jvalTruthy : Option JVal → Bool
  | some (JVal.str s) => !s.isEmpty
  | some (JVal.num n) => decide (n ≠ 0)
  | some JVal.null => false
  | none => false

/-- The mock's `Date.now()`-based fresh id, modelled as an opaque constant
(wall-clock time is outside the embedding). -/
def mockId : JVal := JVal.str "mock-id"

/-- The mock's conflict detection for one existing row:
`conflictColumns.some(column => existing[column] !== undefined &&
existing[column] === item[column])`. -/
def conflictHit (cols : List String) (existing item : Row) : Bool :=
  cols.any fun c =>
    match existing.lookup c with
    | none => false
    | some v => decide (item.lookup c = some v)

/-- The core of the mock's `upsert` for a single (non-array) item, given
the conflict-column list: merge into the first conflicting row, else
append (adding a fresh id when the item has no truthy id). -/
def upsertCore (table : List Row) (item : Row) (cols : List String) :
    List Row × Row :=
  match table.findIdx? (fun ex => conflictHit cols ex item) with
  | some i =>
    let updated := mergeRow (table.getD i []) item
    (table.set i updated, updated)
  | none =>
    let newItem :=
      if jvalTruthy (item.lookup "id") then item
      else mergeRow [("id", mockId)] item
    (table ++ [newItem], newItem)

/-- The mock's `upsert(data, { onConflict }).select().single()` for a
single item: the conflict columns are recovered by splitting `onConflict`
on commas (the wrapper always passes the options object, so the mock's
`|| ['id']` fallback is never taken). -/
def upsertSingle (table : List Row) (item : Row) (onConflict : String) :
    List Row × QueryResponse Row :=
  let cols := jsSplitComma onConflict
  let res := upsertCore table item cols
  (res.1, ⟨some res.2, none, none⟩)

end MockClient

namespace BaseRepository

/-- Source `get`: `if (error) throw error; return data as T` — the data of a
single-row response, which is null exactly when the client found no row. -/
def get (resp : QueryResponse Row) : Except PgError (Option Row) :=
  match resp.error with
  | some e => Except.error e
  | none => Except.ok resp.data

/-- The filter `.eq('id', id)` the wrapper's `get` installs, as the mock's
`eq` predicate `item[column] === value`. -/
def eqIdFilter (idv : JVal) : Row → Bool :=
  fun row => decide (row.lookup "id" = some idv)

/-- Wrapper `get` composed with the mock client:
`from(table).select().eq('id', id).single()`. -/
def getM (table : List Row) (idv : JVal) : Except PgError (Option Row) :=
  get (MockClient.single table [eqIdFilter idv] [] none)

/-- Source `find`: apply filter and ordering, await, `if (error) throw`, return
`data as T[]` (the cast of a null payload is modelled as `[]`; the mock
always supplies data on a successful non-head query). -/
def find (resp : QueryResponse (List Row)) : Except PgError (List Row) :=
  match resp.error with
  | some e => Except.error e
  | none => Except.ok (resp.data.getD [])

/-- The `pagination` metadata block of `findPaginated`. -/
structure Pagination where
  page : Nat
  pageSize : Nat
  totalCount : Nat
  totalPages : Nat
deriving DecidableEq

/-- The `{ items, pagination }` result of `findPaginated`. -/
structure PaginatedResult where
  items : List Row
  pagination : Pagination
deriving DecidableEq

/-- JS `Math.ceil(a / b)` on the nonnegative integers handled here (b ≥ 1);
proved equal to the rational ceiling in `jsCeilDiv_eq_ceil`. -/
def jsCeilDiv (a b : Nat) : Nat := (a + b - 1) / b

/-- Source `getTotalCount`: run the head-only exact-count query,
`if (countError) throw`, return `count ?? 0`. -/
def getTotalCount (resp : QueryResponse Unit) : Except PgError Nat :=
  match resp.error with
  | some e => Except.error e
  | none => Except.ok (resp.count.getD 0)

/-- Source `getPaginatedData`: run the ranged query, `if (error) throw`, return
`data as T[]` (null cast modelled as `[]`). -/
def getPaginatedData (resp : QueryResponse (List Row)) :
    Except PgError (List Row) :=
  match resp.error with
  | some e => Except.error e
  | none => Except.ok (resp.data.getD [])

/-- Source `findPaginated` given the responses of its two queries: the count
query first (its error aborts before the data query is issued), then
`totalPages = Math.ceil(totalCount / pageSize)`, then the ranged data
query, then assemble `{ items, pagination }`. -/
def findPaginated (page pageSize : Nat) (countResp : QueryResponse Unit)
    (dataResp : QueryResponse (List Row)) : Except PgError PaginatedResult :=
  match getTotalCount countResp with
  | Except.error e => Except.error e
  | Except.ok totalCount =>
    let totalPages := jsCeilDiv totalCount pageSize
    match getPaginatedData dataResp with
    | Except.error e => Except.error e
    | Except.ok items =>
      Except.ok ⟨items, ⟨page, pageSize, totalCount, totalPages⟩⟩

/-- The head-only exact-count response of the mock client with a filter
applied, with the unused data slot retyped for the count-only consumers
(`exists`, `count`, `getTotalCount` never read `data`). -/
def headCountResp (table : List Row) (filters : List (Row → Bool)) :
    QueryResponse Unit :=
  let r := MockClient.executeQuery table filters [] none true true
  ⟨none, r.error, r.count⟩

/-- Wrapper `findPaginated` composed with the mock client:
`offset = (page - 1) * pageSize`, a head-only count query, and a data
query ranged `.range(offset, offset + pageSize - 1)`. -/
def findPaginatedM (table : List Row) (page pageSize : Nat)
    (filters : List (Row → Bool)) (ord : List (String × Bool)) :
    Except PgError PaginatedResult :=
  let offset := (page - 1) * pageSize
  findPaginated page pageSize (headCountResp table filters)
    (MockClient.executeQuery table filters ord
      (some (offset, offset + pageSize - 1)) false false)

/-- Source `create`: `insert(data).select().single()`, `if (error) throw`,
return `result as T`. -/
def create (resp : QueryResponse Row) : Except PgError (Option Row) :=
  match resp.error with
  | some e => Except.error e
  | none => Except.ok resp.data

/-- Source `createMany`: `insert(records).select()`, `if (error) throw`, return
`data as T[]` (null cast modelled as `[]`). -/
def createMany (resp : QueryResponse (List Row)) :
    Except PgError (List Row) :=
  match resp.error with
  | some e => Except.error e
  | none => Except.ok (resp.data.getD [])

/-- Source `update`: `update(data).eq('id', id).select().single()`,
`if (error) throw`, return `result as T`. -/
def update (resp : QueryResponse Row) : Except PgError (Option Row) :=
  match resp.error with
  | some e => Except.error e
  | none => Except.ok resp.data

/-- Source `delete`: `delete().eq('id', id)`, `if (error) throw`. -/
def delete (resp : QueryResponse Unit) : Except PgError Unit :=
  match resp.error with
  | some e => Except.error e
  | none => Except.ok ()

/-- Source `deleteMany`: `delete().in('id', ids)`, `if (error) throw`. -/
def deleteMany (resp : QueryResponse Unit) : Except PgError Unit :=
  match resp.error with
  | some e => Except.error e
  | none => Except.ok ()

/-- Source `upsert`: `upsert(data, { onConflict }).select().single()`,
`if (error) throw`, return `result as T`. -/
def upsert (resp : QueryResponse Row) : Except PgError (Option Row) :=
  match resp.error with
  | some e => Except.error e
  | none => Except.ok resp.data

/-- Source `exists` (named `existsQ` because `exists` is reserved
in Lean): head-only exact-count query, `if (error) throw`, return
`(count ?? 0) > 0`. -/
def existsQ (resp : QueryResponse Unit) : Except PgError Bool :=
  match resp.error with
  | some e => Except.error e
  | none => Except.ok (decide (0 < resp.count.getD 0))

/-- Source `count`: head-only exact-count query, `if (error) throw`, return
`count ?? 0`. -/
def count (resp : QueryResponse Unit) : Except PgError Nat :=
  match resp.error with
  | some e => Except.error e
  | none => Except.ok (resp.count.getD 0)

/-- Wrapper `exists` composed with the mock client. -/
def existsM (table : List Row) (filters : List (Row → Bool)) :
    Except PgError Bool :=
  existsQ (headCountResp table filters)

/-- Wrapper `count` composed with the mock client. -/
def countM (table : List Row) (filters : List (Row → Bool)) :
    Except PgError Nat :=
  count (headCountResp table filters)

/-- The rest pattern `const { id, ...updateData } = record` of
`updateMany`: every field except `id`. -/
def restWithoutId (r : Row) : Row :=
  r.filter fun kv => decide (kv.1 ≠ "id")

/-- Source `updateMany` composed with the mock client: for each record in order,
destructure off the id, issue the single-row `update` and push its result;
a thrown error aborts the loop at once.  The pair carries the table state
of the mock client through the sequential updates. -/
def updateManyM (table : List Row) :
    List Row → Except PgError (List (Option Row)) × List Row
  | [] => (Except.ok [], table)
  | r :: rs =>
    let step := MockClient.updateById table (r.lookup "id") (restWithoutId r)
    match update step.2 with
    | Except.error e => (Except.error e, step.1)
    | Except.ok row =>
      match updateManyM step.1 rs with
      | (Except.ok results, tfin) => (Except.ok (row :: results), tfin)
      | (Except.error e, tfin) => (Except.error e, tfin)

/-- Wrapper `upsert` composed with the mock client: the conflict target is
`conflictColumns.join(',')`. -/
def upsertM (table : List Row) (data : Row) (conflictColumns : List String) :
    Except PgError (Option Row) × List Row :=
  let step :=
    MockClient.upsertSingle table data (MockClient.jsJoinComma conflictColumns)
  (upsert step.2, step.1)

end BaseRepository

/-! ## Specification-side definitions

Definitions written from the spec's words, to be compared with the
source-derived ones above. -/

namespace SpecSide

open BaseRepository

/-- Spec: the single-row updates of `updateMany` are applied strictly
sequentially in input order; this folds the client's table state through
them one record at a time. -/
def applySeq (table : List Row) : List Row → List Row
  | [] => table
  | r :: rs =>
    applySeq (MockClient.updateById table (r.lookup "id") (restWithoutId r)).1 rs

/-- All single-row updates of the given records succeed when applied
strictly sequentially from the given table state. -/
def seqOk (table : List Row) : List Row → Bool
  | [] => true
  | r :: rs =>
    let step := MockClient.updateById table (r.lookup "id") (restWithoutId r)
    step.2.error.isNone && seqOk step.1 rs

/-- Spec: the rows `updateMany` returns, one per input record in input
order, each produced by the sequential single-row update. -/
def seqOutputs (table : List Row) : List Row → List (Option Row)
  | [] => []
  | r :: rs =>
    let step := MockClient.updateById table (r.lookup "id") (restWithoutId r)
    step.2.data :: seqOutputs step.1 rs

/-- Spec: `upsert(data, conflictColumns)` hands the conflict-target column
list to the client's native upsert and returns the single resulting row. -/
def upsertSpec (table : List Row) (data : Row) (cols : List String) :
    Except PgError (Option Row) × List Row :=
  let res := MockClient.upsertCore table data cols
  (Except.ok (some res.2), res.1)

end SpecSide

/-! ## Claim theorems -/

/-- C1: for every id, when the underlying client's single-row select for
that id finds no matching row, `get(id)` returns null and does not throw;
when the client reports any other error, `get(id)` throws that error. -/
theorem get_notFound_returns_null_else_rethrows :
    (∀ (table : List Row) (idv : JVal),
        table.filter (BaseRepository.eqIdFilter idv) = [] →
        BaseRepository.getM table idv = Except.ok none)
    ∧ (∀ (resp : QueryResponse Row) (e : PgError),
        resp.error = some e → BaseRepository.get resp = Except.error e) := by
  constructor
  · intro table idv h
    simp [BaseRepository.getM, BaseRepository.get, MockClient.single,
      MockClient.executeQuery, MockClient.filterAll, h]
  · intro resp e h
    simp [BaseRepository.get, h]

/-- Witness for C1 at a concrete table, id and error response. -/
theorem get_notFound_returns_null_else_rethrows_witness :
    BaseRepository.getM [[("id", JVal.num 1)]] (JVal.num 2) = Except.ok none
    ∧ BaseRepository.get ⟨none, some ⟨"boom"⟩, none⟩ =
        Except.error ⟨"boom"⟩ :=
  ⟨get_notFound_returns_null_else_rethrows.1 _ _ (by decide),
   get_notFound_returns_null_else_rethrows.2 _ _ rfl⟩

/-- C6: every public operation rethrows a client error object unchanged:
whichever of its underlying queries responds with error `e`, the
operation's result is exactly `throw e`. -/
theorem errors_rethrown_verbatim (e : PgError)
    (rRow : QueryResponse Row) (rList : QueryResponse (List Row))
    (rUnit : QueryResponse Unit)
    (hR : rRow.error = some e) (hL : rList.error = some e)
    (hU : rUnit.error = some e) :
    BaseRepository.get rRow = Except.error e
    ∧ BaseRepository.find rList = Except.error e
    ∧ (∀ (page pageSize : Nat) (dResp : QueryResponse (List Row)),
        BaseRepository.findPaginated page pageSize rUnit dResp =
          Except.error e)
    ∧ (∀ (page pageSize : Nat) (cResp : QueryResponse Unit),
        cResp.error = none →
        BaseRepository.findPaginated page pageSize cResp rList =
          Except.error e)
    ∧ BaseRepository.create rRow = Except.error e
    ∧ BaseRepository.createMany rList = Except.error e
    ∧ BaseRepository.update rRow = Except.error e
    ∧ BaseRepository.delete rUnit = Except.error e
    ∧ BaseRepository.deleteMany rUnit = Except.error e
    ∧ BaseRepository.upsert rRow = Except.error e
    ∧ BaseRepository.existsQ rUnit = Except.error e
    ∧ BaseRepository.count rUnit = Except.error e := by
  refine ⟨?_, ?_, ?_, ?_, ?_, ?_, ?_, ?_, ?_, ?_, ?_, ?_⟩
  · simp [BaseRepository.get, hR]
  · simp [BaseRepository.find, hL]
  · intro page pageSize dResp
    simp [BaseRepository.findPaginated, BaseRepository.getTotalCount, hU]
  · intro page pageSize cResp hc
    simp [BaseRepository.findPaginated, BaseRepository.getTotalCount,
      BaseRepository.getPaginatedData, hc, hL]
  · simp [BaseRepository.create, hR]
  · simp [BaseRepository.createMany, hL]
  · simp [BaseRepository.update, hR]
  · simp [BaseRepository.delete, hU]
  · simp [BaseRepository.deleteMany, hU]
  · simp [BaseRepository.upsert, hR]
  · simp [BaseRepository.existsQ, hU]
  · simp [BaseRepository.count, hU]

/-- Witness for C6 at a concrete error and concrete responses. -/
theorem errors_rethrown_verbatim_witness :
    BaseRepository.get ⟨none, some ⟨"oops"⟩, none⟩ =
        Except.error ⟨"oops"⟩
    ∧ BaseRepository.find ⟨none, some ⟨"oops"⟩, none⟩ =
        Except.error ⟨"oops"⟩
    ∧ (∀ (page pageSize : Nat) (dResp : QueryResponse (List Row)),
        BaseRepository.findPaginated page pageSize
          ⟨none, some ⟨"oops"⟩, none⟩ dResp = Except.error ⟨"oops"⟩)
    ∧ (∀ (page pageSize : Nat) (cResp : QueryResponse Unit),
        cResp.error = none →
        BaseRepository.findPaginated page pageSize cResp
          ⟨none, some ⟨"oops"⟩, none⟩ = Except.error ⟨"oops"⟩)
    ∧ BaseRepository.create ⟨none, some ⟨"oops"⟩, none⟩ =
        Except.error ⟨"oops"⟩
    ∧ BaseRepository.createMany ⟨none, some ⟨"oops"⟩, none⟩ =
        Except.error ⟨"oops"⟩
    ∧ BaseRepository.update ⟨none, some ⟨"oops"⟩, none⟩ =
        Except.error ⟨"oops"⟩
    ∧ BaseRepository.delete ⟨none, some ⟨"oops"⟩, none⟩ =
        Except.error ⟨"oops"⟩
    ∧ BaseRepository.deleteMany ⟨none, some ⟨"oops"⟩, none⟩ =
        Except.error ⟨"oops"⟩
    ∧ BaseRepository.upsert ⟨none, some ⟨"oops"⟩, none⟩ =
        Except.error ⟨"oops"⟩
    ∧ BaseRepository.existsQ ⟨none, some ⟨"oops"⟩, none⟩ =
        Except.error ⟨"oops"⟩
    ∧ BaseRepository.count ⟨none, some ⟨"oops"⟩, none⟩ =
        Except.error ⟨"oops"⟩ :=
  errors_rethrown_verbatim ⟨"oops"⟩ _ _ _ rfl rfl rfl

/-- C10: a successful head-count response with a null count is treated as
zero: `count` returns 0, `exists` returns false, and `findPaginated`
yields `totalCount = 0` and `totalPages = 0`; none of them throw. -/
theorem null_count_treated_as_zero (resp : QueryResponse Unit)
    (he : resp.error = none) (hc : resp.count = none) :
    BaseRepository.count resp = Except.ok 0
    ∧ BaseRepository.existsQ resp = Except.ok false
    ∧ BaseRepository.getTotalCount resp = Except.ok 0
    ∧ (∀ (page pageSize : Nat) (dResp : QueryResponse (List Row)),
        1 ≤ pageSize → dResp.error = none →
        BaseRepository.findPaginated page pageSize resp dResp =
          Except.ok ⟨dResp.data.getD [], ⟨page, pageSize, 0, 0⟩⟩) := by
  refine ⟨?_, ?_, ?_, ?_⟩
  · simp [BaseRepository.count, he, hc]
  · simp [BaseRepository.existsQ, he, hc]
  · simp [BaseRepository.getTotalCount, he, hc]
  · intro page pageSize dResp hps hde
    have hz : BaseRepository.jsCeilDiv 0 pageSize = 0 := by
      unfold BaseRepository.jsCeilDiv
      exact Nat.div_eq_of_lt (by omega)
    simp [BaseRepository.findPaginated, BaseRepository.getTotalCount,
      BaseRepository.getPaginatedData, he, hc, hde, hz]

/-- Witness for C10 at the concrete null-count response. -/
theorem null_count_treated_as_zero_witness :
    BaseRepository.count ⟨none, none, none⟩ = Except.ok 0
    ∧ BaseRepository.existsQ ⟨none, none, none⟩ = Except.ok false
    ∧ BaseRepository.getTotalCount ⟨none, none, none⟩ = Except.ok 0
    ∧ (∀ (page pageSize : Nat) (dResp : QueryResponse (List Row)),
        1 ≤ pageSize → dResp.error = none →
        BaseRepository.findPaginated page pageSize ⟨none, none, none⟩
          dResp = Except.ok ⟨dResp.data.getD [], ⟨page, pageSize, 0, 0⟩⟩) :=
  null_count_treated_as_zero ⟨none, none, none⟩ rfl rfl

/-- C7: `exists` and `count` both issue a head-only exact-count query with
the filter applied; against the mock client `count` answers the exact
number of rows passing the filter, and `exists` is true iff that count is
positive; at the response level, for any successful response carrying any
count, `exists` is true iff `count` answers a positive number. -/
theorem exists_iff_count_positive :
    (∀ (table : List Row) (filters : List (Row → Bool)),
        (BaseRepository.headCountResp table filters).data = none
        ∧ BaseRepository.countM table filters =
            Except.ok (MockClient.filterAll filters table).length
        ∧ (BaseRepository.existsM table filters = Except.ok true ↔
            0 < (MockClient.filterAll filters table).length))
    ∧ (∀ resp : QueryResponse Unit, resp.error = none →
        (BaseRepository.existsQ resp = Except.ok true ↔
          ∃ n, BaseRepository.count resp = Except.ok n ∧ 0 < n)) := by
  constructor
  · intro table filters
    refine ⟨rfl, ?_, ?_⟩
    · simp [BaseRepository.countM, BaseRepository.count,
        BaseRepository.headCountResp, MockClient.executeQuery]
    · simp [BaseRepository.existsM, BaseRepository.existsQ,
        BaseRepository.headCountResp, MockClient.executeQuery]
  · intro resp he
    simp [BaseRepository.existsQ, BaseRepository.count, he]

/-- Witness for C7 at a concrete table, filter and response. -/
theorem exists_iff_count_positive_witness :
    ((BaseRepository.headCountResp [[("id", JVal.num 1)]]
        [fun r => decide (r.lookup "id" = some (JVal.num 1))]).data = none
      ∧ BaseRepository.countM [[("id", JVal.num 1)]]
          [fun r => decide (r.lookup "id" = some (JVal.num 1))] =
          Except.ok (MockClient.filterAll
            [fun r => decide (r.lookup "id" = some (JVal.num 1))]
            [[("id", JVal.num 1)]]).length
      ∧ (BaseRepository.existsM [[("id", JVal.num 1)]]
            [fun r => decide (r.lookup "id" = some (JVal.num 1))] =
            Except.ok true ↔
          0 < (MockClient.filterAll
            [fun r => decide (r.lookup "id" = some (JVal.num 1))]
            [[("id", JVal.num 1)]]).length))
    ∧ (BaseRepository.existsQ ⟨none, none, some 2⟩ = Except.ok true ↔
        ∃ n, BaseRepository.count ⟨none, none, some 2⟩ = Except.ok n
          ∧ 0 < n) :=
  ⟨exists_iff_count_positive.1 _ _, exists_iff_count_positive.2 _ rfl⟩

/-- The `Math.ceil(a / b)` formula computed by the wrapper as natural-number
arithmetic agrees with the rational ceiling whenever `b ≥ 1`. -/
theorem jsCeilDiv_eq_ceil (a b : Nat) (hb : 1 ≤ b) :
    BaseRepository.jsCeilDiv a b = ⌈(a : ℚ) / (b : ℚ)⌉₊ := by
  unfold BaseRepository.jsCeilDiv
  rcases Nat.eq_zero_or_pos a with ha | ha
  · subst ha
    simp [Nat.div_eq_of_lt (show b - 1 < b by omega)]
  · have hdm := Nat.div_add_mod (a + b - 1) b
    have hmlt : (a + b - 1) % b < b := Nat.mod_lt _ (by omega)
    have hq1 : b * ((a + b - 1) / b) ≤ a + b - 1 := by omega
    have hq2 : a + b - 1 < b * ((a + b - 1) / b) + b := by omega
    obtain ⟨q, hqdef⟩ : ∃ q, (a + b - 1) / b = q := ⟨_, rfl⟩
    rw [hqdef] at hq1 hq2 ⊢
    have hqpos : 1 ≤ q := by
      rcases Nat.eq_zero_or_pos q with h0 | h1
      · subst h0
        omega
      · exact h1
    have hA : a ≤ b * q := by omega
    have hB : b * (q - 1) < a := by
      obtain ⟨p, rfl⟩ : ∃ p, q = p + 1 := ⟨q - 1, by omega⟩
      have hmul : b * (p + 1) = b * p + b := by ring
      simp only [Nat.add_sub_cancel]
      omega
    rw [eq_comm, Nat.ceil_eq_iff (by omega : q ≠ 0)]
    constructor
    · rw [lt_div_iff₀ (by positivity : (0 : ℚ) < (b : ℚ))]
      have hcast : ((b * (q - 1) : ℕ) : ℚ) < (a : ℚ) := by exact_mod_cast hB
      calc ((q - 1 : ℕ) : ℚ) * (b : ℚ) = ((b * (q - 1) : ℕ) : ℚ) := by
            push_cast
            ring
        _ < (a : ℚ) := hcast
    · rw [div_le_iff₀ (by positivity : (0 : ℚ) < (b : ℚ))]
      have hcast : (a : ℚ) ≤ ((b * q : ℕ) : ℚ) := by exact_mod_cast hA
      calc (a : ℚ) ≤ ((b * q : ℕ) : ℚ) := hcast
        _ = (q : ℚ) * (b : ℚ) := by
            push_cast
            ring

/-- C2: when both underlying queries succeed, `findPaginated` returns
pagination metadata whose page and pageSize are the inputs, whose
totalCount is the count the count query reported, and whose totalPages is
`ceil(totalCount / pageSize)`. -/
theorem findPaginated_metadata (page pageSize n : Nat)
    (countResp : QueryResponse Unit) (dataResp : QueryResponse (List Row))
    (hps : 1 ≤ pageSize) (hce : countResp.error = none)
    (hcn : countResp.count = some n) (hde : dataResp.error = none) :
    BaseRepository.findPaginated page pageSize countResp dataResp =
      Except.ok ⟨dataResp.data.getD [],
        ⟨page, pageSize, n, ⌈((n : ℕ) : ℚ) / ((pageSize : ℕ) : ℚ)⌉₊⟩⟩ := by
  simp [BaseRepository.findPaginated, BaseRepository.getTotalCount,
    BaseRepository.getPaginatedData, hce, hcn, hde,
    jsCeilDiv_eq_ceil n pageSize hps]

/-- Witness for C2 at page 2, pageSize 2 and a count of 3. -/
theorem findPaginated_metadata_witness :
    ((1 : ℕ) ≤ 2
      ∧ (⟨none, none, some 3⟩ : QueryResponse Unit).error = none
      ∧ (⟨none, none, some 3⟩ : QueryResponse Unit).count = some 3
      ∧ (⟨some [], none, none⟩ : QueryResponse (List Row)).error = none)
    ∧ BaseRepository.findPaginated 2 2 ⟨none, none, some 3⟩
        ⟨some [], none, none⟩ =
      Except.ok
        ⟨(⟨some [], none, none⟩ : QueryResponse (List Row)).data.getD [],
          ⟨2, 2, 3, ⌈((3 : ℕ) : ℚ) / ((2 : ℕ) : ℚ)⌉₊⟩⟩ :=
  ⟨⟨by decide, rfl, rfl, rfl⟩,
   findPaginated_metadata 2 2 3 _ _ (by decide) rfl rfl rfl⟩

/-- C3: `findPaginated` ranges its data query from offset
`(page - 1) * pageSize` to `offset + pageSize - 1`: its items are the
window of length `pageSize` starting at the offset within the rows the
same (unranged) query would return, so at most `pageSize` items come
back. -/
theorem findPaginated_range_window (table : List Row) (page pageSize : Nat)
    (filters : List (Row → Bool)) (ord : List (String × Bool))
    (_hp : 1 ≤ page) (hps : 1 ≤ pageSize) :
    ∃ r : BaseRepository.PaginatedResult,
      BaseRepository.findPaginatedM table page pageSize filters ord =
        Except.ok r
      ∧ r.items =
          (((MockClient.executeQuery table filters ord none false
              false).data.getD []).drop ((page - 1) * pageSize)).take pageSize
      ∧ r.items.length ≤ pageSize := by
  have hstop : (page - 1) * pageSize + pageSize - 1 + 1 -
      (page - 1) * pageSize = pageSize := by omega
  refine ⟨⟨((MockClient.selectedRows table filters ord).drop
        ((page - 1) * pageSize)).take pageSize,
      ⟨page, pageSize, (MockClient.filterAll filters table).length,
        BaseRepository.jsCeilDiv (MockClient.filterAll filters table).length
          pageSize⟩⟩, ?_, ?_, ?_⟩
  · simp [BaseRepository.findPaginatedM, BaseRepository.findPaginated,
      BaseRepository.getTotalCount, BaseRepository.getPaginatedData,
      BaseRepository.headCountResp, MockClient.executeQuery,
      MockClient.jsSlice, MockClient.selectedRows, hstop]
  · simp [MockClient.executeQuery, MockClient.selectedRows]
  · rw [List.length_take]
    exact min_le_left _ _

/-- Witness for C3 at a one-row table, page 1, pageSize 2. -/
theorem findPaginated_range_window_witness :
    ((1 : ℕ) ≤ 1 ∧ (1 : ℕ) ≤ 2)
    ∧ ∃ r : BaseRepository.PaginatedResult,
        BaseRepository.findPaginatedM [[("id", JVal.num 1)]] 1 2 [] [] =
          Except.ok r
        ∧ r.items =
            (((MockClient.executeQuery [[("id", JVal.num 1)]] [] [] none
                false false).data.getD []).drop ((1 - 1) * 2)).take 2
        ∧ r.items.length ≤ 2 :=
  ⟨⟨by decide, by decide⟩,
   findPaginated_range_window [[("id", JVal.num 1)]] 1 2 [] []
     (by decide) (by decide)⟩

/-- The mock `updateById` leaves the table untouched when it reports an error (no
row matched, nothing written). -/
theorem updateById_error_fst (table : List Row) (idv : Option JVal)
    (patch : Row) (e : PgError)
    (h : (MockClient.updateById table idv patch).2.error = some e) :
    (MockClient.updateById table idv patch).1 = table := by
  unfold MockClient.updateById at h ⊢
  cases hf : table.findIdx? (fun row => decide (row.lookup "id" = idv)) with
  | none => simp [hf]
  | some i =>
    rw [hf] at h
    simp at h

/-- The list `seqOutputs` has one output per input record. -/
theorem seqOutputs_length (table records : List Row) :
    (SpecSide.seqOutputs table records).length = records.length := by
  induction records generalizing table with
  | nil => rfl
  | cons r rs ih => simp [SpecSide.seqOutputs, ih]

/-- C4: when every single-row update succeeds, `updateMany` applies them
strictly sequentially in input order (the client's table state evolves as
the sequential fold `applySeq`), returns the per-record updated rows in
input order (`seqOutputs`), and returns as many rows as it was given. -/
theorem updateMany_sequential (table records : List Row)
    (h : SpecSide.seqOk table records = true) :
    BaseRepository.updateManyM table records =
      (Except.ok (SpecSide.seqOutputs table records),
        SpecSide.applySeq table records)
    ∧ (SpecSide.seqOutputs table records).length = records.length := by
  refine ⟨?_, seqOutputs_length table records⟩
  induction records generalizing table with
  | nil => rfl
  | cons r rs ih =>
    simp only [SpecSide.seqOk, Bool.and_eq_true] at h
    obtain ⟨h1, h2⟩ := h
    have h1' := Option.isNone_iff_eq_none.mp h1
    have hupd : BaseRepository.update
        (MockClient.updateById table (r.lookup "id")
          (BaseRepository.restWithoutId r)).2 =
        Except.ok (MockClient.updateById table (r.lookup "id")
          (BaseRepository.restWithoutId r)).2.data := by
      simp [BaseRepository.update, h1']
    simp only [BaseRepository.updateManyM, SpecSide.seqOutputs,
      SpecSide.applySeq, hupd, ih _ h2]

/-- Witness for C4 at a two-row table and two matching update records. -/
theorem updateMany_sequential_witness :
    SpecSide.seqOk
        [[("id", JVal.num 1), ("name", JVal.str "a")],
         [("id", JVal.num 2), ("name", JVal.str "b")]]
        [[("id", JVal.num 1), ("name", JVal.str "x")],
         [("id", JVal.num 2)]] = true
    ∧ (BaseRepository.updateManyM
          [[("id", JVal.num 1), ("name", JVal.str "a")],
           [("id", JVal.num 2), ("name", JVal.str "b")]]
          [[("id", JVal.num 1), ("name", JVal.str "x")],
           [("id", JVal.num 2)]] =
        (Except.ok (SpecSide.seqOutputs
            [[("id", JVal.num 1), ("name", JVal.str "a")],
             [("id", JVal.num 2), ("name", JVal.str "b")]]
            [[("id", JVal.num 1), ("name", JVal.str "x")],
             [("id", JVal.num 2)]]),
          SpecSide.applySeq
            [[("id", JVal.num 1), ("name", JVal.str "a")],
             [("id", JVal.num 2), ("name", JVal.str "b")]]
            [[("id", JVal.num 1), ("name", JVal.str "x")],
             [("id", JVal.num 2)]])
        ∧ (SpecSide.seqOutputs
            [[("id", JVal.num 1), ("name", JVal.str "a")],
             [("id", JVal.num 2), ("name", JVal.str "b")]]
            [[("id", JVal.num 1), ("name", JVal.str "x")],
             [("id", JVal.num 2)]]).length =
          ([[("id", JVal.num 1), ("name", JVal.str "x")],
            [("id", JVal.num 2)]] : List Row).length) :=
  ⟨by decide, updateMany_sequential _ _ (by decide)⟩

/-- C5: when the update for the k-th record fails (after the first k-1
succeeded sequentially), `updateMany` throws that client error at once:
the table keeps the first k-1 updates (no rollback, the failing update
writes nothing), and the records after the k-th are never consulted. -/
theorem updateMany_aborts_on_failure (table pre : List Row) (r : Row)
    (rest : List Row) (e : PgError)
    (hok : SpecSide.seqOk table pre = true)
    (herr : (MockClient.updateById (SpecSide.applySeq table pre)
        (r.lookup "id") (BaseRepository.restWithoutId r)).2.error = some e) :
    BaseRepository.updateManyM table (pre ++ r :: rest) =
      (Except.error e, SpecSide.applySeq table pre)
    ∧ BaseRepository.updateManyM table (pre ++ r :: rest) =
      BaseRepository.updateManyM table (pre ++ [r]) := by
  have main : ∀ (table pre : List Row), SpecSide.seqOk table pre = true →
      (MockClient.updateById (SpecSide.applySeq table pre) (r.lookup "id")
        (BaseRepository.restWithoutId r)).2.error = some e →
      ∀ rest : List Row,
        BaseRepository.updateManyM table (pre ++ r :: rest) =
          (Except.error e, SpecSide.applySeq table pre) := by
    intro table pre
    induction pre generalizing table with
    | nil =>
      intro _ he rest
      simp only [SpecSide.applySeq] at he ⊢
      have h1 : BaseRepository.update (MockClient.updateById table
          (r.lookup "id") (BaseRepository.restWithoutId r)).2 =
          Except.error e := by
        simp [BaseRepository.update, he]
      simp only [List.nil_append, BaseRepository.updateManyM, h1]
      rw [updateById_error_fst _ _ _ _ he]
    | cons p ps ih =>
      intro hok he rest
      simp only [SpecSide.seqOk, Bool.and_eq_true] at hok
      obtain ⟨h1, h2⟩ := hok
      have h1' := Option.isNone_iff_eq_none.mp h1
      have hupd : BaseRepository.update (MockClient.updateById table
          (p.lookup "id") (BaseRepository.restWithoutId p)).2 =
          Except.ok (MockClient.updateById table (p.lookup "id")
            (BaseRepository.restWithoutId p)).2.data := by
        simp [BaseRepository.update, h1']
      simp only [SpecSide.applySeq] at he ⊢
      simp only [List.cons_append, BaseRepository.updateManyM, hupd]
      simp only [List.append_eq]
      rw [ih _ h2 he rest]
  exact ⟨main table pre hok herr rest,
    by rw [main table pre hok herr rest, main table pre hok herr []]⟩

/-- Witness for C5: one successful update, then a record whose id matches
no row, then one further record that is never processed. -/
theorem updateMany_aborts_on_failure_witness :
    SpecSide.seqOk [[("id", JVal.num 1), ("name", JVal.str "a")]]
        [[("id", JVal.num 1), ("name", JVal.str "b")]] = true
    ∧ (MockClient.updateById
        (SpecSide.applySeq [[("id", JVal.num 1), ("name", JVal.str "a")]]
          [[("id", JVal.num 1), ("name", JVal.str "b")]])
        (([("id", JVal.num 2)] : Row).lookup "id")
        (BaseRepository.restWithoutId [("id", JVal.num 2)])).2.error =
        some ⟨"No rows updated"⟩
    ∧ (BaseRepository.updateManyM
          [[("id", JVal.num 1), ("name", JVal.str "a")]]
          ([[("id", JVal.num 1), ("name", JVal.str "b")]] ++
            [("id", JVal.num 2)] :: [[("id", JVal.num 1)]]) =
        (Except.error ⟨"No rows updated"⟩,
          SpecSide.applySeq [[("id", JVal.num 1), ("name", JVal.str "a")]]
            [[("id", JVal.num 1), ("name", JVal.str "b")]])
        ∧ BaseRepository.updateManyM
            [[("id", JVal.num 1), ("name", JVal.str "a")]]
            ([[("id", JVal.num 1), ("name", JVal.str "b")]] ++
              [("id", JVal.num 2)] :: [[("id", JVal.num 1)]]) =
          BaseRepository.updateManyM
            [[("id", JVal.num 1), ("name", JVal.str "a")]]
            ([[("id", JVal.num 1), ("name", JVal.str "b")]] ++
              [[("id", JVal.num 2)]])) :=
  ⟨by decide, by decide,
   updateMany_aborts_on_failure _ _ _ _ _ (by decide) (by decide)⟩

/-- Looking a key up in a concatenation: the left list wins. -/
theorem lookup_append (k : String) (l1 l2 : List (String × JVal)) :
    (l1 ++ l2).lookup k = Option.or (l1.lookup k) (l2.lookup k) := by
  induction l1 with
  | nil => rfl
  | cons kv t ih =>
    cases hbe : k == kv.1 with
    | true => simp [List.lookup, hbe]
    | false => simp [List.lookup, hbe, ih]

/-- Overriding the values of an association list by a patch that does not
bind `k` leaves the lookup of `k` unchanged. -/
theorem lookup_map_override (k : String) (old patch : Row)
    (hk : patch.lookup k = none) :
    (old.map fun kv =>
      match patch.lookup kv.1 with
      | some v => (kv.1, v)
      | none => kv).lookup k = old.lookup k := by
  induction old with
  | nil => rfl
  | cons kv t ih =>
    cases hbe : k == kv.1 with
    | true =>
      have hkk : k = kv.1 := by simpa using hbe
      have hp : patch.lookup kv.1 = none := by
        rw [← hkk]
        exact hk
      simp [List.lookup, hp, hbe]
    | false =>
      cases hp : patch.lookup kv.1 with
      | some v => simp [List.lookup, hp, hbe, ih]
      | none => simp [List.lookup, hp, hbe, ih]

/-- A key absent from a list is absent from any filtering of it. -/
theorem lookup_filter_none (k : String) (patch : Row)
    (g : String × JVal → Bool) (hk : patch.lookup k = none) :
    (patch.filter g).lookup k = none := by
  induction patch with
  | nil => rfl
  | cons p t ih =>
    cases hbe : k == p.1 with
    | true =>
      rw [List.lookup] at hk
      rw [hbe] at hk
      exact absurd hk (by simp)
    | false =>
      have ht : t.lookup k = none := by
        rw [List.lookup] at hk
        rw [hbe] at hk
        exact hk
      cases hg : g p with
      | true => simp [List.filter, hg, List.lookup, hbe, ih ht]
      | false => simp [List.filter, hg, ih ht]

/-- The spread merge with a patch that does not bind `k` leaves the
lookup of `k` unchanged. -/
theorem mergeRow_lookup_of_none (k : String) (old patch : Row)
    (hk : patch.lookup k = none) :
    (MockClient.mergeRow old patch).lookup k = old.lookup k := by
  unfold MockClient.mergeRow
  rw [lookup_append, lookup_map_override k old patch hk]
  cases ho : old.lookup k with
  | some v => rfl
  | none => simp [Option.or, lookup_filter_none k patch _ hk]

/-- C9: `updateMany` destructures the id off each record
(`const { id, ...updateData } = record`), so the update payload carries no
`id` column and the merge the client performs never writes the `id` of
the stored row. -/
theorem updateMany_strips_id (r old : Row) :
    "id" ∉ (BaseRepository.restWithoutId r).map Prod.fst
    ∧ (BaseRepository.restWithoutId r).lookup "id" = none
    ∧ (MockClient.mergeRow old (BaseRepository.restWithoutId r)).lookup "id"
        = old.lookup "id" := by
  have hlk : (BaseRepository.restWithoutId r).lookup "id" = none := by
    induction r with
    | nil => rfl
    | cons kv t ih =>
      by_cases h : kv.1 = "id"
      · have hdrop : BaseRepository.restWithoutId (kv :: t) =
            BaseRepository.restWithoutId t := by
          simp [BaseRepository.restWithoutId, List.filter, h]
        rw [hdrop]
        exact ih
      · have hkeep : BaseRepository.restWithoutId (kv :: t) =
            kv :: BaseRepository.restWithoutId t := by
          simp [BaseRepository.restWithoutId, List.filter, h]
        have hbe : ("id" == kv.1) = false :=
          beq_eq_false_iff_ne.mpr fun hh => h hh.symm
        rw [hkeep, List.lookup, hbe]
        exact ih
  refine ⟨?_, hlk, mergeRow_lookup_of_none _ _ _ hlk⟩
  intro hmem
  obtain ⟨kv, hkv, hfst⟩ := List.mem_map.mp hmem
  have := (List.mem_filter.mp hkv).2
  simp at this
  exact this hfst

/-- Splitting a comma-free word on commas yields the word itself. -/
theorem splitCommaAux_no_comma (w : List Char) (hw : ',' ∉ w) :
    MockClient.splitCommaAux w = [w] := by
  induction w with
  | nil => rfl
  | cons c t ih =>
    have hc : ¬(c = ',') := by
      intro h
      exact hw (by simp [h])
    have ht : ',' ∉ t := fun h => hw (List.mem_cons_of_mem _ h)
    simp [MockClient.splitCommaAux, hc, ih ht]

/-- Splitting after a comma-free word peels that word off. -/
theorem splitCommaAux_append (w t : List Char) (hw : ',' ∉ w) :
    MockClient.splitCommaAux (w ++ ',' :: t) =
      w :: MockClient.splitCommaAux t := by
  induction w with
  | nil => simp [MockClient.splitCommaAux]
  | cons c cs ih =>
    have hc : ¬(c = ',') := by
      intro h
      exact hw (by simp [h])
    have hcs : ',' ∉ cs := fun h => hw (List.mem_cons_of_mem _ h)
    simp [MockClient.splitCommaAux, hc, ih hcs]

/-- JS `join(',')` then `split(',')` round-trips a nonempty list of
comma-free column names. -/
theorem jsSplit_jsJoin_roundtrip (cols : List String) (hne : cols ≠ [])
    (hnc : ∀ c ∈ cols, ',' ∉ c.data) :
    MockClient.jsSplitComma (MockClient.jsJoinComma cols) = cols := by
  induction cols with
  | nil => exact absurd rfl hne
  | cons c cs ih =>
    cases cs with
    | nil =>
      have hc : ',' ∉ c.data := hnc c (by simp)
      simp [MockClient.jsJoinComma, MockClient.jsSplitComma,
        splitCommaAux_no_comma c.data hc]
    | cons d ds =>
      have hc : ',' ∉ c.data := hnc c (by simp)
      have hdata : (c ++ "," ++ MockClient.jsJoinComma (d :: ds)).data =
          c.data ++ ',' :: (MockClient.jsJoinComma (d :: ds)).data := by
        rw [String.data_append, String.data_append]
        simp
      have htail : MockClient.jsSplitComma
          (MockClient.jsJoinComma (d :: ds)) = d :: ds :=
        ih (by simp) (fun x hx => hnc x (List.mem_cons_of_mem _ hx))
      show MockClient.jsSplitComma (c ++ "," ++
        MockClient.jsJoinComma (d :: ds)) = c :: d :: ds
      unfold MockClient.jsSplitComma
      rw [hdata, splitCommaAux_append _ _ hc]
      rw [List.map]
      exact congrArg (List.cons c) htail

/-- C8: `upsert(data, conflictColumns)` hands the client one upsert whose
conflict target is the columns joined with commas; the client recovers
exactly those columns, so the composed operation agrees with handing the
column list over directly, and on success the single resulting row comes
back. -/
theorem upsert_conflict_target (table : List Row) (data : Row)
    (cols : List String) (hne : cols ≠ [])
    (hnc : ∀ c ∈ cols, ',' ∉ c.data) :
    MockClient.jsSplitComma (MockClient.jsJoinComma cols) = cols
    ∧ BaseRepository.upsertM table data cols =
        SpecSide.upsertSpec table data cols
    ∧ (BaseRepository.upsertM table data cols).1 =
        Except.ok (some (MockClient.upsertCore table data cols).2) := by
  have hrt := jsSplit_jsJoin_roundtrip cols hne hnc
  refine ⟨hrt, ?_, ?_⟩
  · unfold BaseRepository.upsertM SpecSide.upsertSpec MockClient.upsertSingle
    rw [hrt]
    rfl
  · unfold BaseRepository.upsertM MockClient.upsertSingle
    rw [hrt]
    rfl

/-- Witness for C8 at a two-column conflict target. -/
theorem upsert_conflict_target_witness :
    (["email", "org"] ≠ ([] : List String)
      ∧ ∀ c ∈ ["email", "org"], ',' ∉ c.data)
    ∧ (MockClient.jsSplitComma (MockClient.jsJoinComma ["email", "org"]) =
        ["email", "org"]
      ∧ BaseRepository.upsertM [] [("email", JVal.str "a")]
          ["email", "org"] =
        SpecSide.upsertSpec [] [("email", JVal.str "a")] ["email", "org"]
      ∧ (BaseRepository.upsertM [] [("email", JVal.str "a")]
          ["email", "org"]).1 =
        Except.ok (some (MockClient.upsertCore [] [("email", JVal.str "a")]
          ["email", "org"]).2)) :=
  ⟨⟨by decide, by decide⟩,
   upsert_conflict_target [] [("email", JVal.str "a")] ["email", "org"]
     (by decide) (by decide)⟩

end SupabaseRepoWrapper
